import Mathlib

/-!
Verification development for the semver-tag-sync-action repository.

The Go sources are shallowly embedded:

* `ParseSemVer`, `SemVer.MajorTag`, `SemVer.MinorTag` embed the semver
  parsing module (regex `^v(\d+)\.(\d+)\.(\d+)([-+].*)?$` is embedded as
  the character-level function `semverMatch`; RE2 `\d` is the ASCII digit
  class and `.` matches every character except a newline).
* `extractTagFromRef`, `parseRepository`, `Config.Validate` embed the
  plumbing helpers.
* `Action.syncTag` and `Action.Run` embed the orchestrator.  The GitHub
  client is a capability record over an abstract remote state `σ`
  (reads are queries, mutations return a new state); every remote call the
  Go code makes is recorded in an `Event` trace, and the two dry-run
  "[dry-run] Would create/update tag" log reports are recorded as events
  as well, since the specification treats them as observable outputs.
  Go `error` values are embedded structurally as `GoError` so that
  wrapping (`fmt.Errorf` with `%w`) and aggregation (`errors.Join`)
  keep every individual failure's identity.
-/

namespace SemverTagSync

/-- Embeds the Go regex digit class `\d` (ASCII `0`-`9`). -/
def isDigitCh (c : Char) : Bool := '0' ≤ c && c ≤ '9'

/-- Embeds `SemVer` from the Go source: parsed components are kept as the
literal captured strings. -/
structure SemVer where
  Major : String
  Minor : String
  Patch : String
  Suffix : String
  Full : String
  IsPrerelease : Bool
deriving Repr, DecidableEq

/-- Stage 4 of the embedded regex match: the three captured components and
the remainder after the patch digits.  The remainder must be empty or be a
`-`/`+` followed by non-newline characters (RE2 `.` does not match a
newline); the components must be non-empty (`\d+`). -/
def semverSuffixStage (maj mino pat suf : List Char) :
    Option (List Char × List Char × List Char × List Char) :=
  if maj = [] || mino = [] || pat = [] then none
  else
    match suf with
    | [] => some (maj, mino, pat, [])
    | c :: tail =>
      if (c = '-' || c = '+') && tail.all (fun d => d != '\n') then
        some (maj, mino, pat, c :: tail)
      else none

/-- Stage 3: after `v<maj>.<mino>.`, capture the patch digits greedily and
hand the remainder to the suffix stage. -/
def semverPatchStage (maj mino r4 : List Char) :
    Option (List Char × List Char × List Char × List Char) :=
  semverSuffixStage maj mino (r4.takeWhile isDigitCh) (r4.dropWhile isDigitCh)

/-- Stage 2: after `v<maj>.`, capture the minor digits greedily and demand
a literal dot. -/
def semverMinorStage (maj r2 : List Char) :
    Option (List Char × List Char × List Char × List Char) :=
  match r2.dropWhile isDigitCh with
  | c2 :: r4 => if c2 = '.' then semverPatchStage maj (r2.takeWhile isDigitCh) r4 else none
  | [] => none

/-- Stage 1: after the leading `v`, capture the major digits greedily and
demand a literal dot. -/
def semverMajorStage (rest : List Char) :
    Option (List Char × List Char × List Char × List Char) :=
  match rest.dropWhile isDigitCh with
  | c1 :: r2 => if c1 = '.' then semverMinorStage (rest.takeWhile isDigitCh) r2 else none
  | [] => none

/-- Character-level embedding of matching `^v(\d+)\.(\d+)\.(\d+)([-+].*)?$`
against a tag.  Returns the four capture groups on success.  Greedy `\d+`
is maximal-munch (no backtracking is possible since `\d` matches neither
`.` nor `-`/`+`). -/
def semverMatch (cs : List Char) : Option (List Char × List Char × List Char × List Char) :=
  match cs with
  | [] => none
  | c0 :: rest => if c0 = 'v' then semverMajorStage rest else none

/-- Embeds `strings.HasPrefix(suffix, "-")` on the suffix characters. -/
def hasDashHead : List Char → Bool
  | c :: _ => c = '-'
  | [] => false

/-- Embeds `ParseSemVer` from the Go source. -/
def ParseSemVer (tag : String) : Except String SemVer :=
  match semverMatch tag.data with
  | none =>
    .error ("tag \"" ++ tag ++ "\" does not match semantic versioning format (expected vX.Y.Z)")
  | some (maj, mino, pat, suf) =>
    .ok { Major := String.mk maj, Minor := String.mk mino, Patch := String.mk pat,
          Suffix := String.mk suf, Full := tag, IsPrerelease := hasDashHead suf }

/-- Embeds `SemVer.MajorTag` (Go: `fmt.Sprintf("v%s", s.Major)`). -/
def SemVer.MajorTag (s : SemVer) : String := "v" ++ s.Major

/-- Embeds `SemVer.MinorTag` (Go: `fmt.Sprintf("v%s.%s", s.Major, s.Minor)`). -/
def SemVer.MinorTag (s : SemVer) : String := "v" ++ s.Major ++ "." ++ s.Minor

/-- Embeds `extractTagFromRef`: strips the literal prefix `refs/tags/`
(Go: `strings.HasPrefix` / `strings.TrimPrefix`). -/
def extractTagFromRef (ref : String) : Except String String :=
  if ("refs/tags/".data).isPrefixOf ref.data then
    .ok (String.mk (ref.data.drop ("refs/tags/".data).length))
  else
    .error ("ref \"" ++ ref ++ "\" is not a tag (expected refs/tags/...)")

/-- Embeds Go `strings.Split` with a one-character separator. -/
def splitOnCh (sep : Char) : List Char → List (List Char)
  | [] => [[]]
  | c :: cs =>
    if c = sep then [] :: splitOnCh sep cs
    else
      match splitOnCh sep cs with
      | [] => [[c]]
      | p :: ps => (c :: p) :: ps

/-- Embeds `parseRepository`: `strings.Split(repo, "/")` must give exactly
two non-empty parts. -/
def parseRepository (repo : String) : Except String (String × String) :=
  match splitOnCh '/' repo.data with
  | [a, b] =>
    if a = [] || b = [] then
      .error ("invalid repository format \"" ++ repo ++ "\" (expected owner/repo)")
    else
      .ok (String.mk a, String.mk b)
  | _ => .error ("invalid repository format \"" ++ repo ++ "\" (expected owner/repo)")

/-- Embeds the `Config` struct. -/
structure Config where
  GitHubToken : String
  GitHubRepo : String
  GitRef : String
  CommitSHA : String
  SyncMajor : Bool
  SyncMinor : Bool
  SkipPrereleases : Bool
  DryRun : Bool
  GitHubEnterpriseURL : String
  LogLevel : String
deriving Repr, DecidableEq

/-- Embeds `Config.Validate`: `none` means the Go method returned `nil`. -/
def Config.Validate (c : Config) : Option String :=
  if c.GitHubToken = "" then
    some "github token is required (set --github-token or GITHUB_TOKEN)"
  else if c.GitHubRepo = "" then
    some "github repo is required (set --github-repo or GITHUB_REPOSITORY)"
  else if c.GitRef = "" then
    some "git ref is required (set --git-ref or GITHUB_REF)"
  else if c.CommitSHA = "" then
    some "commit sha is required (set --commit-sha or GITHUB_SHA)"
  else if !c.SyncMajor && !c.SyncMinor then
    some "at least one of --sync-major or --sync-minor must be enabled"
  else
    none

/-- Structural embedding of Go `error` values: `wrap` is `fmt.Errorf`
with `%w`, `join` is `errors.Join`.  Keeping the structure (instead of a
flat message) lets us state that aggregation preserves every individual
failure's identity. -/
inductive GoError where
  | msg (s : String)
  | wrap (s : String) (cause : GoError)
  | join (errs : List GoError)
deriving Repr

/-- Embeds `*github.Response` as far as the action inspects it: only the
HTTP status code is ever read. -/
structure Response where
  statusCode : Nat
deriving Repr, DecidableEq

/-- Embeds `github.CreateRef` (the fields the action sets). -/
structure CreateRef where
  Ref : String
  SHA : String
deriving Repr, DecidableEq

/-- Embeds `github.UpdateRef` (the fields the action sets).  `Force` is a
`*bool` in Go, hence `Option Bool` here. -/
structure UpdateRef where
  SHA : String
  Force : Option Bool
deriving Repr, DecidableEq

/-- Embeds the `GitHubClient` capability interface over an abstract remote
state `σ`.  `GetRef` is a read-only query returning the response and error
the Go call yields (the returned `*github.Reference` is discarded by the
action, so it is not modelled); `CreateRef`/`UpdateRef` mutate the remote
and return the error (the action discards their reference and response). -/
structure GitHubClient (σ : Type) where
  GetRef : σ → String → String → String → Option Response × Option GoError
  CreateRef : σ → String → String → CreateRef → σ × Option GoError
  UpdateRef : σ → String → String → String → UpdateRef → σ × Option GoError

/-- Observable events of one run: each remote call the Go code issues, and
the two `[dry-run] Would create/update tag` reports it logs. -/
inductive Event where
  | getRef (owner repo ref : String)
  | createRef (owner repo : String) (cr : CreateRef)
  | updateRef (owner repo ref : String) (u : UpdateRef)
  | reportWouldCreate (tag sha : String)
  | reportWouldUpdate (tag sha : String)
deriving Repr, DecidableEq

/-- Embeds the tail of `Action.syncTag` after the probe classified the tag
as existing (`tagExists`) or absent: dry-run exit, else forced update or
create, with error wrapping exactly as the Go code does. -/
def Action.syncTagDecided {σ : Type} (c : GitHubClient σ) (cfg : Config) (s : σ)
    (owner repo tag refName fullRefName : String) (tagExists : Bool) :
    σ × List Event × Option GoError :=
  if cfg.DryRun then
    if tagExists then
      (s, [Event.reportWouldUpdate tag cfg.CommitSHA], none)
    else
      (s, [Event.reportWouldCreate tag cfg.CommitSHA], none)
  else if tagExists then
    let u : UpdateRef := { SHA := cfg.CommitSHA, Force := some true }
    let res := c.UpdateRef s owner repo refName u
    (res.1, [Event.updateRef owner repo refName u],
      match res.2 with
      | some e => some (GoError.wrap ("failed to update tag " ++ tag) e)
      | none => none)
  else
    let cr : CreateRef := { Ref := fullRefName, SHA := cfg.CommitSHA }
    let res := c.CreateRef s owner repo cr
    (res.1, [Event.createRef owner repo cr],
      match res.2 with
      | some e => some (GoError.wrap ("failed to create tag " ++ tag) e)
      | none => none)

/-- Embeds `Action.syncTag`: probe `tags/<tag>`, classify the probe result
(an error with a 404 response means absent; an error with no response or a
non-404 response aborts with a wrapped error; success means present), then
hand over to the decided branch.  The returned event list is the trace of
this reconciliation. -/
def Action.syncTag {σ : Type} (c : GitHubClient σ) (cfg : Config) (s : σ)
    (owner repo tag : String) : σ × List Event × Option GoError :=
  let refName := "tags/" ++ tag
  let fullRefName := "refs/tags/" ++ tag
  let probe := c.GetRef s owner repo refName
  let probeEv := Event.getRef owner repo refName
  match probe.2 with
  | some e =>
    match probe.1 with
    | none =>
      (s, [probeEv], some (GoError.wrap ("failed to check if tag " ++ tag ++ " exists") e))
    | some r =>
      if r.statusCode ≠ 404 then
        (s, [probeEv], some (GoError.wrap ("failed to check if tag " ++ tag ++ " exists") e))
      else
        let res := Action.syncTagDecided c cfg s owner repo tag refName fullRefName false
        (res.1, probeEv :: res.2.1, res.2.2)
  | none =>
    let res := Action.syncTagDecided c cfg s owner repo tag refName fullRefName true
    (res.1, probeEv :: res.2.1, res.2.2)

/-- Embeds `Action.Run`: extract the tag, parse it, apply the prerelease
skip, parse the repository, then sync major and minor (each when enabled),
collecting wrapped failures and joining them at the end. -/
def Action.Run {σ : Type} (c : GitHubClient σ) (cfg : Config) (s : σ) :
    σ × List Event × Option GoError :=
  match extractTagFromRef cfg.GitRef with
  | .error e => (s, [], some (GoError.msg e))
  | .ok tag =>
    match ParseSemVer tag with
    | .error e => (s, [], some (GoError.msg e))
    | .ok semver =>
      if semver.IsPrerelease && cfg.SkipPrereleases then
        (s, [], none)
      else
        match parseRepository cfg.GitHubRepo with
        | .error e => (s, [], some (GoError.msg e))
        | .ok (owner, repo) =>
          let major :=
            if cfg.SyncMajor then
              let res := Action.syncTag c cfg s owner repo semver.MajorTag
              (res.1, res.2.1,
                match res.2.2 with
                | some e =>
                  [GoError.wrap ("failed to sync major tag " ++ semver.MajorTag) e]
                | none => [])
            else (s, [], [])
          let minor :=
            if cfg.SyncMinor then
              let res := Action.syncTag c cfg major.1 owner repo semver.MinorTag
              (res.1, res.2.1,
                match res.2.2 with
                | some e =>
                  [GoError.wrap ("failed to sync minor tag " ++ semver.MinorTag) e]
                | none => [])
            else (major.1, [], [])
          match major.2.2 ++ minor.2.2 with
          | [] => (minor.1, major.2.1 ++ minor.2.1, none)
          | es => (minor.1, major.2.1 ++ minor.2.1, some (GoError.join es))

/-- The suffix shapes the embedded regex accepts: empty, or a `-`/`+` head
followed by characters none of which is a newline (RE2 `.` does not match
a newline). -/
def suffixShapeOK (suf : List Char) : Prop :=
  suf = [] ∨ ∃ c tail, suf = c :: tail ∧ (c = '-' ∨ c = '+') ∧ ∀ d ∈ tail, d ≠ '\n'

/-- The grammar exactly as the claim words it: lowercase `v`, three
non-empty dot-separated decimal-digit components, optional suffix starting
with `-` or `+`, anchored at both ends.  (It places no restriction on the
characters after the leading `-`/`+` of the suffix.) -/
def ClaimGrammar (tag : String) : Prop :=
  ∃ maj mino pat suf : List Char,
    tag.data = 'v' :: (maj ++ '.' :: (mino ++ '.' :: (pat ++ suf))) ∧
    maj ≠ [] ∧ (∀ c ∈ maj, isDigitCh c = true) ∧
    mino ≠ [] ∧ (∀ c ∈ mino, isDigitCh c = true) ∧
    pat ≠ [] ∧ (∀ c ∈ pat, isDigitCh c = true) ∧
    (suf = [] ∨ ∃ c tail, suf = c :: tail ∧ (c = '-' ∨ c = '+'))

/-- The claim's grammar amended with the one restriction the code's regex
adds: the suffix may not contain a newline character. -/
def AmendedGrammar (tag : String) : Prop :=
  ∃ maj mino pat suf : List Char,
    tag.data = 'v' :: (maj ++ '.' :: (mino ++ '.' :: (pat ++ suf))) ∧
    maj ≠ [] ∧ (∀ c ∈ maj, isDigitCh c = true) ∧
    mino ≠ [] ∧ (∀ c ∈ mino, isDigitCh c = true) ∧
    pat ≠ [] ∧ (∀ c ∈ pat, isDigitCh c = true) ∧
    suffixShapeOK suf

/-- Remote ref store used to exercise reconciliation end to end: an
association list from (owner, repo, full ref name) to the commit sha it
points at. -/
abbrev RefStore : Type := List ((String × String × String) × String)

/-- Looks up a ref in the store. -/
def refLookup (m : RefStore) (k : String × String × String) : Option String :=
  match m with
  | [] => none
  | (k', v) :: rest => if k' = k then some v else refLookup rest k

/-- Sets a ref in the store, replacing the first binding of the same key
or appending a fresh one. -/
def refSet (m : RefStore) (k : String × String × String) (v : String) : RefStore :=
  match m with
  | [] => [(k, v)]
  | (k', v') :: rest => if k' = k then (k, v) :: rest else (k', v') :: refSet rest k v

/-- An in-memory remote with GitHub ref semantics, faithfully recording
each mutation: `GetRef`/`UpdateRef` address a ref by its short name
(`tags/x`), `CreateRef` by its full name (`refs/tags/x`); both address the
same underlying ref, so the store is keyed by full names.  A probe of a
missing ref yields a structured 404 response plus an error, exactly the
shape the real client returns. -/
def memClient : GitHubClient RefStore where
  GetRef s owner repo ref :=
    match refLookup s (owner, repo, "refs/" ++ ref) with
    | some _ => (some { statusCode := 200 }, none)
    | none => (some { statusCode := 404 }, some (GoError.msg "not found"))
  CreateRef s owner repo cr := (refSet s (owner, repo, cr.Ref) cr.SHA, none)
  UpdateRef s owner repo ref u :=
    match refLookup s (owner, repo, "refs/" ++ ref) with
    | some _ => (refSet s (owner, repo, "refs/" ++ ref) u.SHA, none)
    | none => (s, some (GoError.msg "reference does not exist"))

/-- A client whose every call fails the way a real client fails once the
caller-supplied context is cancelled: a transport-level error with no
structured response. -/
def cancelledClient : GitHubClient Unit where
  GetRef _ _ _ _ := (none, some (GoError.msg "context canceled"))
  CreateRef s _ _ _ := (s, some (GoError.msg "context canceled"))
  UpdateRef s _ _ _ _ := (s, some (GoError.msg "context canceled"))

/-- A concrete, fully valid configuration used to instantiate the claim
theorems at explicit inputs. -/
def baseCfg : Config :=
  { GitHubToken := "t0ken", GitHubRepo := "owner/repo", GitRef := "refs/tags/v1.2.3",
    CommitSHA := "abc123", SyncMajor := true, SyncMinor := true,
    SkipPrereleases := true, DryRun := false, GitHubEnterpriseURL := "", LogLevel := "info" }

/-- The aggregation `Run` performs at the end: the optional major and
minor reconciliation failures, each wrapped with its rolling tag name,
collected into one `errors.Join` value (or `none` when both succeeded). -/
def joinSyncErrors (majorTagName minorTagName : String) :
    Option GoError → Option GoError → Option GoError
  | none, none => none
  | some a, none =>
    some (GoError.join [GoError.wrap ("failed to sync major tag " ++ majorTagName) a])
  | none, some b =>
    some (GoError.join [GoError.wrap ("failed to sync minor tag " ++ minorTagName) b])
  | some a, some b =>
    some (GoError.join [GoError.wrap ("failed to sync major tag " ++ majorTagName) a,
                        GoError.wrap ("failed to sync minor tag " ++ minorTagName) b])

/-- Discriminates the events that mutate the remote (the create and
update calls) from probes and dry-run reports. -/
def isMutatingEvent : Event → Bool
  | Event.createRef _ _ _ => true
  | Event.updateRef _ _ _ _ => true
  | _ => false

/-- The parsed value of `v1.2.3`, used to instantiate theorems at a
concrete input. -/
def svPlain : SemVer :=
  { Major := "1", Minor := "2", Patch := "3", Suffix := "", Full := "v1.2.3",
    IsPrerelease := false }

/-- The parsed value of `v1.2.3-beta+build`, used to instantiate theorems
at a concrete input. -/
def svBetaBuild : SemVer :=
  { Major := "1", Minor := "2", Patch := "3", Suffix := "-beta+build",
    Full := "v1.2.3-beta+build", IsPrerelease := true }

theorem takeWhile_digits_prefix (d r : List Char)
    (hd : ∀ c ∈ d, isDigitCh c = true)
    (hr : r.takeWhile isDigitCh = []) :
    (d ++ r).takeWhile isDigitCh = d := by
  rw [List.takeWhile_append_of_pos hd, hr, List.append_nil]

theorem dropWhile_digits_rest (d r : List Char)
    (hd : ∀ c ∈ d, isDigitCh c = true)
    (hr : r.dropWhile isDigitCh = r) :
    (d ++ r).dropWhile isDigitCh = r := by
  rw [List.dropWhile_append_of_pos hd, hr]

theorem suffix_takeWhile_nil (suf : List Char) (h : suffixShapeOK suf) :
    suf.takeWhile isDigitCh = [] := by
  rcases h with h | ⟨c, tail, rfl, hc, _⟩
  · simp [h]
  · rcases hc with rfl | rfl <;> simp [List.takeWhile_cons_of_neg, isDigitCh]

theorem suffix_dropWhile_self (suf : List Char) (h : suffixShapeOK suf) :
    suf.dropWhile isDigitCh = suf := by
  rcases h with h | ⟨c, tail, rfl, hc, _⟩
  · simp [h]
  · rcases hc with rfl | rfl <;> simp [List.dropWhile_cons_of_neg, isDigitCh]

/-- Completeness of the embedded regex match: every string of the accepted
shape matches, with the four capture groups recovered exactly. -/
theorem semverMatch_complete (maj mino pat suf : List Char)
    (hmaj1 : maj ≠ []) (hmaj2 : ∀ c ∈ maj, isDigitCh c = true)
    (hmino1 : mino ≠ []) (hmino2 : ∀ c ∈ mino, isDigitCh c = true)
    (hpat1 : pat ≠ []) (hpat2 : ∀ c ∈ pat, isDigitCh c = true)
    (hsuf : suffixShapeOK suf) :
    semverMatch ('v' :: (maj ++ '.' :: (mino ++ '.' :: (pat ++ suf)))) =
      some (maj, mino, pat, suf) := by
  have hdot : ¬ (isDigitCh '.' = true) := by decide
  have htake1 : (maj ++ '.' :: (mino ++ '.' :: (pat ++ suf))).takeWhile isDigitCh = maj :=
    takeWhile_digits_prefix _ _ hmaj2 (List.takeWhile_cons_of_neg hdot)
  have hdrop1 : (maj ++ '.' :: (mino ++ '.' :: (pat ++ suf))).dropWhile isDigitCh =
      '.' :: (mino ++ '.' :: (pat ++ suf)) :=
    dropWhile_digits_rest _ _ hmaj2 (List.dropWhile_cons_of_neg hdot)
  have htake2 : (mino ++ '.' :: (pat ++ suf)).takeWhile isDigitCh = mino :=
    takeWhile_digits_prefix _ _ hmino2 (List.takeWhile_cons_of_neg hdot)
  have hdrop2 : (mino ++ '.' :: (pat ++ suf)).dropWhile isDigitCh = '.' :: (pat ++ suf) :=
    dropWhile_digits_rest _ _ hmino2 (List.dropWhile_cons_of_neg hdot)
  have htake3 : (pat ++ suf).takeWhile isDigitCh = pat :=
    takeWhile_digits_prefix _ _ hpat2 (suffix_takeWhile_nil suf hsuf)
  have hdrop3 : (pat ++ suf).dropWhile isDigitCh = suf :=
    dropWhile_digits_rest _ _ hpat2 (suffix_dropWhile_self suf hsuf)
  have hstep : semverMatch ('v' :: (maj ++ '.' :: (mino ++ '.' :: (pat ++ suf)))) =
      semverSuffixStage maj mino pat suf := by
    simp only [semverMatch, if_pos rfl, semverMajorStage, hdrop1, htake1]
    simp only [if_pos rfl, semverMinorStage, hdrop2, htake2]
    simp only [if_pos rfl, semverPatchStage, htake3, hdrop3]
    simp
  rw [hstep]
  simp only [semverSuffixStage.eq_def]
  rw [if_neg (by simp [hmaj1, hmino1, hpat1])]
  rcases hsuf with rfl | ⟨c, tail, rfl, hc, htail⟩
  · rfl
  · have hcb : (c = '-' || c = '+') = true := by
      rcases hc with rfl | rfl <;> rfl
    have htb : tail.all (fun d => d != '\n') = true := by
      rw [List.all_eq_true]
      intro d hd
      simpa using htail d hd
    simp [hcb, htb]

theorem takeWhile_digits_all (l : List Char) :
    ∀ c ∈ l.takeWhile isDigitCh, isDigitCh c = true :=
  List.all_eq_true.mp List.all_takeWhile

theorem semverSuffixStage_sound (maj mino pat suf : List Char)
    (out : List Char × List Char × List Char × List Char)
    (h : semverSuffixStage maj mino pat suf = some out) :
    out = (maj, mino, pat, suf) ∧ maj ≠ [] ∧ mino ≠ [] ∧ pat ≠ [] ∧ suffixShapeOK suf := by
  rw [semverSuffixStage.eq_def] at h
  split at h
  · exact absurd h (by simp)
  · rename_i hcond
    have hne : maj ≠ [] ∧ mino ≠ [] ∧ pat ≠ [] := by
      constructor
      · intro hx; exact hcond (by simp [hx])
      constructor
      · intro hx; exact hcond (by simp [hx])
      · intro hx; exact hcond (by simp [hx])
    split at h
    · refine ⟨by injection h with h'; exact h'.symm, hne.1, hne.2.1, hne.2.2, Or.inl rfl⟩
    · rename_i c tail
      split at h
      · rename_i hc
        have hc' := hc
        rw [Bool.and_eq_true, Bool.or_eq_true, decide_eq_true_eq, decide_eq_true_eq,
          List.all_eq_true] at hc'
        refine ⟨by injection h with h'; exact h'.symm, hne.1, hne.2.1, hne.2.2,
          Or.inr ⟨c, tail, rfl, hc'.1, ?_⟩⟩
        intro d hd
        have := hc'.2 d hd
        simpa using this
      · exact absurd h (by simp)

theorem semverPatchStage_sound (maj mino r4 : List Char)
    (out : List Char × List Char × List Char × List Char)
    (h : semverPatchStage maj mino r4 = some out) :
    ∃ pat suf, r4 = pat ++ suf ∧ (∀ c ∈ pat, isDigitCh c = true) ∧
      semverSuffixStage maj mino pat suf = some out := by
  refine ⟨r4.takeWhile isDigitCh, r4.dropWhile isDigitCh,
    (List.takeWhile_append_dropWhile isDigitCh r4).symm, takeWhile_digits_all r4, h⟩

theorem semverMinorStage_sound (maj r2 : List Char)
    (out : List Char × List Char × List Char × List Char)
    (h : semverMinorStage maj r2 = some out) :
    ∃ mino r4, r2 = mino ++ '.' :: r4 ∧ (∀ c ∈ mino, isDigitCh c = true) ∧
      semverPatchStage maj mino r4 = some out := by
  rw [semverMinorStage.eq_def] at h
  split at h
  · rename_i c2 r4 heq
    split at h
    · rename_i hc
      subst hc
      refine ⟨r2.takeWhile isDigitCh, r4, ?_, takeWhile_digits_all r2, h⟩
      conv_lhs => rw [← List.takeWhile_append_dropWhile (p := isDigitCh) (l := r2)]
      rw [heq]
    · exact absurd h (by simp)
  · exact absurd h (by simp)

theorem semverMajorStage_sound (rest : List Char)
    (out : List Char × List Char × List Char × List Char)
    (h : semverMajorStage rest = some out) :
    ∃ maj r2, rest = maj ++ '.' :: r2 ∧ (∀ c ∈ maj, isDigitCh c = true) ∧
      semverMinorStage maj r2 = some out := by
  rw [semverMajorStage.eq_def] at h
  split at h
  · rename_i c1 r2 heq
    split at h
    · rename_i hc
      subst hc
      refine ⟨rest.takeWhile isDigitCh, r2, ?_, takeWhile_digits_all rest, h⟩
      conv_lhs => rw [← List.takeWhile_append_dropWhile (p := isDigitCh) (l := rest)]
      rw [heq]
    · exact absurd h (by simp)
  · exact absurd h (by simp)

/-- Soundness of the embedded regex match: a successful match decomposes
the input into the four capture groups with all grammar side conditions. -/
theorem semverMatch_sound (cs maj mino pat suf : List Char)
    (h : semverMatch cs = some (maj, mino, pat, suf)) :
    cs = 'v' :: (maj ++ '.' :: (mino ++ '.' :: (pat ++ suf))) ∧
    maj ≠ [] ∧ (∀ c ∈ maj, isDigitCh c = true) ∧
    mino ≠ [] ∧ (∀ c ∈ mino, isDigitCh c = true) ∧
    pat ≠ [] ∧ (∀ c ∈ pat, isDigitCh c = true) ∧
    suffixShapeOK suf := by
  rw [semverMatch.eq_def] at h
  split at h
  · exact absurd h (by simp)
  · rename_i c0 rest
    split at h
    · rename_i hc
      subst hc
      obtain ⟨maj', r2, hrest, hmajd, h2⟩ := semverMajorStage_sound rest _ h
      obtain ⟨mino', r4, hr2, hminod, h3⟩ := semverMinorStage_sound maj' r2 _ h2
      obtain ⟨pat', suf', hr4, hpatd, h4⟩ := semverPatchStage_sound maj' mino' r4 _ h3
      obtain ⟨hout, hmajne, hminone, hpatne, hsufok⟩ := semverSuffixStage_sound _ _ _ _ _ h4
      obtain ⟨hm1, hm2, hm3, hm4⟩ : maj = maj' ∧ mino = mino' ∧ pat = pat' ∧ suf = suf' := by
        injection hout with e1 e2
        injection e2 with e2 e3
        injection e3 with e3 e4
        exact ⟨e1, e2, e3, e4⟩
      subst hm1; subst hm2; subst hm3; subst hm4
      subst hrest; subst hr2; subst hr4
      exact ⟨rfl, hmajne, hmajd, hminone, hminod, hpatne, hpatd, hsufok⟩
    · exact absurd h (by simp)

theorem ParseSemVer_ok_elim (tag : String) (sv : SemVer) (h : ParseSemVer tag = .ok sv) :
    ∃ maj mino pat suf, semverMatch tag.data = some (maj, mino, pat, suf) ∧
      sv = { Major := String.mk maj, Minor := String.mk mino, Patch := String.mk pat,
             Suffix := String.mk suf, Full := tag, IsPrerelease := hasDashHead suf } := by
  rw [ParseSemVer.eq_def] at h
  split at h
  · exact absurd h (by simp)
  · rename_i maj mino pat suf heq
    exact ⟨maj, mino, pat, suf, heq, by injection h with h'; exact h'.symm⟩

theorem ParseSemVer_ok_intro (tag : String) (maj mino pat suf : List Char)
    (h : semverMatch tag.data = some (maj, mino, pat, suf)) :
    ParseSemVer tag =
      .ok { Major := String.mk maj, Minor := String.mk mino, Patch := String.mk pat,
            Suffix := String.mk suf, Full := tag, IsPrerelease := hasDashHead suf } := by
  rw [ParseSemVer.eq_def, h]

end SemverTagSync

namespace SemverTagSync

example : (ParseSemVer "v1.2.3").toOption =
    some { Major := "1", Minor := "2", Patch := "3", Suffix := "", Full := "v1.2.3",
           IsPrerelease := false } := by decide

example : (ParseSemVer "v1.2.3-beta+build").toOption =
    some { Major := "1", Minor := "2", Patch := "3", Suffix := "-beta+build",
           Full := "v1.2.3-beta+build", IsPrerelease := true } := by decide

example : (ParseSemVer "v01.02.03").toOption =
    some { Major := "01", Minor := "02", Patch := "03", Suffix := "",
           Full := "v01.02.03", IsPrerelease := false } := by decide

example : (ParseSemVer "v1.2").toOption = none := by decide

example : (ParseSemVer "1.2.3").toOption = none := by decide

example : (ParseSemVer "v1.2.abc").toOption = none := by decide

/-- C10: configuration validation also requires a non-empty authentication
token, beyond the conditions the spec lists: `Validate` returns nil iff
the token, repository, ref, and commit identifier are all non-empty and
at least one of SyncMajor/SyncMinor is true; an empty token alone causes
a validation error even when every spec-listed condition is satisfied. -/
theorem Config_Validate_iff_and_token_required :
    (∀ c : Config, c.Validate = none ↔
      (c.GitHubToken ≠ "" ∧ c.GitHubRepo ≠ "" ∧ c.GitRef ≠ "" ∧ c.CommitSHA ≠ "" ∧
       (c.SyncMajor = true ∨ c.SyncMinor = true))) ∧
    ({ baseCfg with GitHubToken := "" } : Config).Validate.isSome = true := by
  constructor
  · intro c
    unfold Config.Validate
    split_ifs with h1 h2 h3 h4 h5 <;> simp_all
    cases hsm : c.SyncMajor with
    | true => exact Or.inl rfl
    | false => exact Or.inr (h5 hsm)
  · decide

theorem strData_append (a b : String) : (a ++ b).data = a.data ++ b.data := by
  cases a; cases b; rfl

/-- C3 counterexample: the claim's grammar (optional suffix starting with
`-` or `+`, with no restriction on the remaining characters) accepts the
tag `v1.2.3-a<newline>b`, but `ParseSemVer` rejects it, because RE2 `.`
(and hence the `([-+].*)?` suffix group) never matches a newline. -/
theorem ParseSemVer_claim_grammar_counterexample :
    ClaimGrammar "v1.2.3-a\nb" ∧ (ParseSemVer "v1.2.3-a\nb").toOption = none := by
  refine ⟨⟨['1'], ['2'], ['3'], ['-', 'a', '\n', 'b'], by decide, by decide, by decide,
    by decide, by decide, by decide, by decide,
    Or.inr ⟨'-', ['a', '\n', 'b'], rfl, Or.inl rfl⟩⟩, by decide⟩

/-- C3 (amended): `parse(tag)` succeeds exactly for inputs of the form
lowercase `v` followed by three non-empty dot-separated decimal-digit
components and an optional suffix that starts with `-` or `+` and contains
no newline character, anchored at both ends; it rejects `1.2.3` (no v
prefix), `v1.2`, `v1`, the empty string and `v1.2.abc` with an error and
no partial result, and accepts `v01.02.03` preserving the digit strings
`01`, `02`, `03` verbatim with no upper bound on digit count. -/
theorem ParseSemVer_accepts_exactly_amended_grammar :
    (∀ tag : String, (∃ sv, ParseSemVer tag = .ok sv) ↔ AmendedGrammar tag) ∧
    (ParseSemVer "1.2.3").toOption = none ∧
    (ParseSemVer "v1.2").toOption = none ∧
    (ParseSemVer "v1").toOption = none ∧
    (ParseSemVer "").toOption = none ∧
    (ParseSemVer "v1.2.abc").toOption = none ∧
    (∃ sv, ParseSemVer "v01.02.03" = .ok sv ∧
      sv.Major = "01" ∧ sv.Minor = "02" ∧ sv.Patch = "03") := by
  refine ⟨?_, by decide, by decide, by decide, by decide, by decide,
    ⟨{ Major := "01", Minor := "02", Patch := "03", Suffix := "", Full := "v01.02.03",
       IsPrerelease := false }, rfl, rfl, rfl, rfl⟩⟩
  intro tag
  constructor
  · rintro ⟨sv, h⟩
    obtain ⟨maj, mino, pat, suf, hm, -⟩ := ParseSemVer_ok_elim tag sv h
    obtain ⟨hdec, hp1, hp2, hp3, hp4, hp5, hp6, hp7⟩ :=
      semverMatch_sound tag.data maj mino pat suf hm
    exact ⟨maj, mino, pat, suf, hdec, hp1, hp2, hp3, hp4, hp5, hp6, hp7⟩
  · rintro ⟨maj, mino, pat, suf, hdec, hp1, hp2, hp3, hp4, hp5, hp6, hp7⟩
    have hm : semverMatch tag.data = some (maj, mino, pat, suf) := by
      rw [hdec]
      exact semverMatch_complete maj mino pat suf hp1 hp2 hp3 hp4 hp5 hp6 hp7
    exact ⟨_, ParseSemVer_ok_intro tag maj mino pat suf hm⟩

/-- C4: for every accepted tag, everything from the first `-` or `+` after
the patch digits to end of string is the suffix, captured verbatim (the
tag is exactly `v<major>.<minor>.<patch><suffix>`), and `IsPrerelease` is
true iff the suffix is non-empty and its first character is `-`; a suffix
beginning with `+` (build metadata only) yields `IsPrerelease = false`. -/
theorem ParseSemVer_suffix_verbatim_and_prerelease (tag : String) (sv : SemVer)
    (h : ParseSemVer tag = .ok sv) :
    tag = "v" ++ sv.Major ++ "." ++ sv.Minor ++ "." ++ sv.Patch ++ sv.Suffix ∧
    (sv.IsPrerelease = true ↔ sv.Suffix ≠ "" ∧ sv.Suffix.data.head? = some '-') ∧
    (∀ rest, sv.Suffix.data = '+' :: rest → sv.IsPrerelease = false) := by
  obtain ⟨maj, mino, pat, suf, hm, rfl⟩ := ParseSemVer_ok_elim tag sv h
  obtain ⟨hdec, -⟩ := semverMatch_sound tag.data maj mino pat suf hm
  refine ⟨?_, ?_, ?_⟩
  · apply String.ext
    simp only [strData_append, hdec]
    simp [List.append_assoc]
  · cases suf with
    | nil => simp [hasDashHead, String.ext_iff]
    | cons c tail =>
      have hne : (String.mk (c :: tail) : String) ≠ "" := by
        intro hcon
        have hlist : c :: tail = ([] : List Char) := congrArg String.data hcon
        simp at hlist
      constructor
      · intro hpre
        have hc : c = '-' := by simpa [hasDashHead] using hpre
        subst hc
        exact ⟨hne, rfl⟩
      · rintro ⟨-, hhead⟩
        have hc : c = '-' := by simpa using hhead
        subst hc
        simp [hasDashHead]
  · intro rest hEq
    have : suf = '+' :: rest := hEq
    subst this
    simp [hasDashHead]

/-- C9: for every tag accepted by parse, the derived rolling-tag names
satisfy `MajorTag = "v" ++ Major` and `MinorTag = "v" ++ Major ++ "." ++
Minor`, where `Major` and `Minor` are the literal digit strings captured
from the tag (so the patch is never part of a rolling tag name). -/
theorem SemVer_rolling_tag_names (tag : String) (sv : SemVer)
    (h : ParseSemVer tag = .ok sv) :
    sv.MajorTag = "v" ++ sv.Major ∧
    sv.MinorTag = "v" ++ sv.Major ++ "." ++ sv.Minor ∧
    tag.data = 'v' :: (sv.Major.data ++ '.' :: (sv.Minor.data ++ '.' ::
      (sv.Patch.data ++ sv.Suffix.data))) := by
  obtain ⟨maj, mino, pat, suf, hm, rfl⟩ := ParseSemVer_ok_elim tag sv h
  obtain ⟨hdec, -⟩ := semverMatch_sound tag.data maj mino pat suf hm
  exact ⟨rfl, rfl, hdec⟩

/-- C4 witness: the C4 theorem applied at the concrete tag
`v1.2.3-beta+build`. -/
theorem ParseSemVer_suffix_verbatim_witness :
    ("v1.2.3-beta+build" : String) =
      "v" ++ svBetaBuild.Major ++ "." ++ svBetaBuild.Minor ++ "." ++ svBetaBuild.Patch ++
        svBetaBuild.Suffix ∧
    (svBetaBuild.IsPrerelease = true ↔
      svBetaBuild.Suffix ≠ "" ∧ svBetaBuild.Suffix.data.head? = some '-') ∧
    (∀ rest, svBetaBuild.Suffix.data = '+' :: rest → svBetaBuild.IsPrerelease = false) :=
  ParseSemVer_suffix_verbatim_and_prerelease "v1.2.3-beta+build" svBetaBuild rfl

/-- C9 witness: the C9 theorem applied at the concrete tag `v1.2.3`. -/
theorem SemVer_rolling_tag_names_witness :
    svPlain.MajorTag = "v" ++ svPlain.Major ∧
    svPlain.MinorTag = "v" ++ svPlain.Major ++ "." ++ svPlain.Minor ∧
    ("v1.2.3" : String).data = 'v' :: (svPlain.Major.data ++ '.' :: (svPlain.Minor.data ++ '.' ::
      (svPlain.Patch.data ++ svPlain.Suffix.data))) :=
  SemVer_rolling_tag_names "v1.2.3" svPlain rfl

theorem syncTag_eq_fatal_noresp {σ : Type} (c : GitHubClient σ) (cfg : Config) (s : σ)
    (owner repo tag : String) (e : GoError)
    (hp : c.GetRef s owner repo ("tags/" ++ tag) = (none, some e)) :
    Action.syncTag c cfg s owner repo tag =
      (s, [Event.getRef owner repo ("tags/" ++ tag)],
       some (GoError.wrap ("failed to check if tag " ++ tag ++ " exists") e)) := by
  simp only [Action.syncTag, hp]

theorem syncTag_eq_fatal_badstatus {σ : Type} (c : GitHubClient σ) (cfg : Config) (s : σ)
    (owner repo tag : String) (r : Response) (e : GoError)
    (hp : c.GetRef s owner repo ("tags/" ++ tag) = (some r, some e))
    (hr : r.statusCode ≠ 404) :
    Action.syncTag c cfg s owner repo tag =
      (s, [Event.getRef owner repo ("tags/" ++ tag)],
       some (GoError.wrap ("failed to check if tag " ++ tag ++ " exists") e)) := by
  simp only [Action.syncTag, hp]
  rw [if_pos hr]

theorem syncTag_eq_notfound {σ : Type} (c : GitHubClient σ) (cfg : Config) (s : σ)
    (owner repo tag : String) (r : Response) (e : GoError)
    (hp : c.GetRef s owner repo ("tags/" ++ tag) = (some r, some e))
    (hr : r.statusCode = 404) :
    Action.syncTag c cfg s owner repo tag =
      ((Action.syncTagDecided c cfg s owner repo tag ("tags/" ++ tag)
          ("refs/tags/" ++ tag) false).1,
       Event.getRef owner repo ("tags/" ++ tag) ::
         (Action.syncTagDecided c cfg s owner repo tag ("tags/" ++ tag)
           ("refs/tags/" ++ tag) false).2.1,
       (Action.syncTagDecided c cfg s owner repo tag ("tags/" ++ tag)
         ("refs/tags/" ++ tag) false).2.2) := by
  simp only [Action.syncTag, hp]
  rw [if_neg (by simp [hr])]

theorem syncTag_eq_present {σ : Type} (c : GitHubClient σ) (cfg : Config) (s : σ)
    (owner repo tag : String) (resp : Option Response)
    (hp : c.GetRef s owner repo ("tags/" ++ tag) = (resp, none)) :
    Action.syncTag c cfg s owner repo tag =
      ((Action.syncTagDecided c cfg s owner repo tag ("tags/" ++ tag)
          ("refs/tags/" ++ tag) true).1,
       Event.getRef owner repo ("tags/" ++ tag) ::
         (Action.syncTagDecided c cfg s owner repo tag ("tags/" ++ tag)
           ("refs/tags/" ++ tag) true).2.1,
       (Action.syncTagDecided c cfg s owner repo tag ("tags/" ++ tag)
         ("refs/tags/" ++ tag) true).2.2) := by
  simp only [Action.syncTag, hp]

/-- C1: in a real (non-dry-run) reconciliation the single existence probe
classifies the outcome: a probe error with a 404 response is treated as
absent and leads to a create of `refs/tags/<tag>` at the target commit
(not an error); a probe error with any other status, or with no response
object, aborts this tag's reconciliation with a wrapped error identifying
the tag; a successful probe is treated as present and leads to an update
whose force flag is unconditionally `true`. -/
theorem syncTag_probe_classification {σ : Type} (c : GitHubClient σ) (cfg : Config)
    (s : σ) (owner repo tag : String) (hdry : cfg.DryRun = false) :
    (∀ e, (c.GetRef s owner repo ("tags/" ++ tag)).2 = some e →
      ((c.GetRef s owner repo ("tags/" ++ tag)).1 = none ∨
       ∃ r, (c.GetRef s owner repo ("tags/" ++ tag)).1 = some r ∧ r.statusCode ≠ 404) →
      Action.syncTag c cfg s owner repo tag =
        (s, [Event.getRef owner repo ("tags/" ++ tag)],
         some (GoError.wrap ("failed to check if tag " ++ tag ++ " exists") e))) ∧
    (∀ e r, c.GetRef s owner repo ("tags/" ++ tag) = (some r, some e) → r.statusCode = 404 →
      Action.syncTag c cfg s owner repo tag =
        ((c.CreateRef s owner repo { Ref := "refs/tags/" ++ tag, SHA := cfg.CommitSHA }).1,
         [Event.getRef owner repo ("tags/" ++ tag),
          Event.createRef owner repo { Ref := "refs/tags/" ++ tag, SHA := cfg.CommitSHA }],
         match (c.CreateRef s owner repo { Ref := "refs/tags/" ++ tag, SHA := cfg.CommitSHA }).2 with
         | some e2 => some (GoError.wrap ("failed to create tag " ++ tag) e2)
         | none => none)) ∧
    ((c.GetRef s owner repo ("tags/" ++ tag)).2 = none →
      Action.syncTag c cfg s owner repo tag =
        ((c.UpdateRef s owner repo ("tags/" ++ tag)
            { SHA := cfg.CommitSHA, Force := some true }).1,
         [Event.getRef owner repo ("tags/" ++ tag),
          Event.updateRef owner repo ("tags/" ++ tag)
            { SHA := cfg.CommitSHA, Force := some true }],
         match (c.UpdateRef s owner repo ("tags/" ++ tag)
            { SHA := cfg.CommitSHA, Force := some true }).2 with
         | some e2 => some (GoError.wrap ("failed to update tag " ++ tag) e2)
         | none => none)) := by
  refine ⟨?_, ?_, ?_⟩
  · rintro e he hre
    have hpair : c.GetRef s owner repo ("tags/" ++ tag) =
        ((c.GetRef s owner repo ("tags/" ++ tag)).1, some e) := by
      rw [← he]
    rcases hre with hr | ⟨r, hr, hr404⟩
    · exact syncTag_eq_fatal_noresp c cfg s owner repo tag e (by rw [hpair, hr])
    · exact syncTag_eq_fatal_badstatus c cfg s owner repo tag r e (by rw [hpair, hr]) hr404
  · rintro e r hp h404
    rw [syncTag_eq_notfound c cfg s owner repo tag r e hp h404]
    simp [Action.syncTagDecided, hdry]
  · intro he
    have hpair : c.GetRef s owner repo ("tags/" ++ tag) =
        ((c.GetRef s owner repo ("tags/" ++ tag)).1, none) := by
      rw [← he]
    rw [syncTag_eq_present c cfg s owner repo tag _ hpair]
    simp [Action.syncTagDecided, hdry]

/-- C1 witness: the classification theorem applied to the in-memory
remote with an empty store, where the probe of `tags/v1` reports 404 and
the reconciliation creates `refs/tags/v1` at the configured commit. -/
theorem syncTag_probe_classification_witness :
    Action.syncTag memClient baseCfg ([] : RefStore) "owner" "repo" "v1" =
      (refSet ([] : RefStore) ("owner", "repo", "refs/tags/v1") "abc123",
       [Event.getRef "owner" "repo" "tags/v1",
        Event.createRef "owner" "repo" { Ref := "refs/tags/v1", SHA := "abc123" }],
       none) := by
  have h := (syncTag_probe_classification memClient baseCfg ([] : RefStore)
      "owner" "repo" "v1" rfl).2.1 (GoError.msg "not found") { statusCode := 404 } rfl rfl
  exact h

/-- C7: in a dry-run reconciliation the existence probe is still executed
and its error classification still applies, but no mutating call is ever
issued: on a successful probe the intended update is only reported, on a
404 probe the intended create is only reported, each returning success;
the remote state is unchanged in every case. -/
theorem syncTag_dry_run {σ : Type} (c : GitHubClient σ) (cfg : Config) (s : σ)
    (owner repo tag : String) (hdry : cfg.DryRun = true) :
    ((c.GetRef s owner repo ("tags/" ++ tag)).2 = none →
      Action.syncTag c cfg s owner repo tag =
        (s, [Event.getRef owner repo ("tags/" ++ tag),
             Event.reportWouldUpdate tag cfg.CommitSHA], none)) ∧
    (∀ e r, c.GetRef s owner repo ("tags/" ++ tag) = (some r, some e) → r.statusCode = 404 →
      Action.syncTag c cfg s owner repo tag =
        (s, [Event.getRef owner repo ("tags/" ++ tag),
             Event.reportWouldCreate tag cfg.CommitSHA], none)) ∧
    (∀ e, (c.GetRef s owner repo ("tags/" ++ tag)).2 = some e →
      ((c.GetRef s owner repo ("tags/" ++ tag)).1 = none ∨
       ∃ r, (c.GetRef s owner repo ("tags/" ++ tag)).1 = some r ∧ r.statusCode ≠ 404) →
      Action.syncTag c cfg s owner repo tag =
        (s, [Event.getRef owner repo ("tags/" ++ tag)],
         some (GoError.wrap ("failed to check if tag " ++ tag ++ " exists") e))) ∧
    ((Action.syncTag c cfg s owner repo tag).1 = s ∧
     (Action.syncTag c cfg s owner repo tag).2.1.all
       (fun ev => !(isMutatingEvent ev)) = true) := by
  refine ⟨?_, ?_, ?_, ?_⟩
  · intro he
    have hpair : c.GetRef s owner repo ("tags/" ++ tag) =
        ((c.GetRef s owner repo ("tags/" ++ tag)).1, none) := by
      rw [← he]
    rw [syncTag_eq_present c cfg s owner repo tag _ hpair]
    simp [Action.syncTagDecided, hdry]
  · rintro e r hp h404
    rw [syncTag_eq_notfound c cfg s owner repo tag r e hp h404]
    simp [Action.syncTagDecided, hdry]
  · rintro e he hre
    have hpair : c.GetRef s owner repo ("tags/" ++ tag) =
        ((c.GetRef s owner repo ("tags/" ++ tag)).1, some e) := by
      rw [← he]
    rcases hre with hr | ⟨r, hr, hr404⟩
    · exact syncTag_eq_fatal_noresp c cfg s owner repo tag e (by rw [hpair, hr])
    · exact syncTag_eq_fatal_badstatus c cfg s owner repo tag r e (by rw [hpair, hr]) hr404
  · rcases hgp : c.GetRef s owner repo ("tags/" ++ tag) with ⟨resp, err⟩
    have hdecT : Action.syncTagDecided c cfg s owner repo tag ("tags/" ++ tag)
        ("refs/tags/" ++ tag) true = (s, [Event.reportWouldUpdate tag cfg.CommitSHA], none) := by
      simp [Action.syncTagDecided, hdry]
    have hdecF : Action.syncTagDecided c cfg s owner repo tag ("tags/" ++ tag)
        ("refs/tags/" ++ tag) false = (s, [Event.reportWouldCreate tag cfg.CommitSHA], none) := by
      simp [Action.syncTagDecided, hdry]
    cases err with
    | none =>
      rw [syncTag_eq_present c cfg s owner repo tag _ hgp, hdecT]
      exact ⟨rfl, rfl⟩
    | some e =>
      cases resp with
      | none =>
        rw [syncTag_eq_fatal_noresp c cfg s owner repo tag e hgp]
        exact ⟨rfl, rfl⟩
      | some r =>
        by_cases hr : r.statusCode = 404
        · rw [syncTag_eq_notfound c cfg s owner repo tag r e hgp hr, hdecF]
          exact ⟨rfl, rfl⟩
        · rw [syncTag_eq_fatal_badstatus c cfg s owner repo tag r e hgp hr]
          exact ⟨rfl, rfl⟩

/-- C7 witness: the dry-run theorem applied to the in-memory remote with
an empty store, where the probe reports 404 and only the intended create
is reported. -/
theorem syncTag_dry_run_witness :
    Action.syncTag memClient { baseCfg with DryRun := true } ([] : RefStore)
        "owner" "repo" "v1" =
      (([] : RefStore),
       [Event.getRef "owner" "repo" "tags/v1", Event.reportWouldCreate "v1" "abc123"],
       none) :=
  (syncTag_dry_run memClient { baseCfg with DryRun := true } ([] : RefStore)
      "owner" "repo" "v1" rfl).2.1 (GoError.msg "not found") { statusCode := 404 } rfl rfl

theorem Run_eq_of_both {σ : Type} (c : GitHubClient σ) (cfg : Config) (s : σ)
    (tag : String) (sv : SemVer) (owner repo : String)
    (h1 : extractTagFromRef cfg.GitRef = .ok tag)
    (h2 : ParseSemVer tag = .ok sv)
    (h3 : (sv.IsPrerelease && cfg.SkipPrereleases) = false)
    (h4 : parseRepository cfg.GitHubRepo = .ok (owner, repo))
    (hmaj : cfg.SyncMajor = true) (hmin : cfg.SyncMinor = true)
    (s1 s2 : σ) (ev1 ev2 : List Event) (e1 e2 : Option GoError)
    (hA : Action.syncTag c cfg s owner repo sv.MajorTag = (s1, ev1, e1))
    (hB : Action.syncTag c cfg s1 owner repo sv.MinorTag = (s2, ev2, e2)) :
    Action.Run c cfg s = (s2, ev1 ++ ev2, joinSyncErrors sv.MajorTag sv.MinorTag e1 e2) := by
  cases e1 <;> cases e2 <;>
    simp [Action.Run, h1, h2, h3, h4, hmaj, hmin, hA, hB, joinSyncErrors]

/-- C2: with both switches enabled the orchestrator attempts the major
reconciliation first and then the minor reconciliation on the post-major
state even if the major one failed; the run errors iff at least one
reconciliation failed, and the aggregated error keeps every individual
failure wrapped with its rolling tag name and underlying cause. -/
theorem Run_attempts_both_and_aggregates {σ : Type} (c : GitHubClient σ) (cfg : Config)
    (s : σ) (tag : String) (sv : SemVer) (owner repo : String)
    (h1 : extractTagFromRef cfg.GitRef = .ok tag)
    (h2 : ParseSemVer tag = .ok sv)
    (h3 : (sv.IsPrerelease && cfg.SkipPrereleases) = false)
    (h4 : parseRepository cfg.GitHubRepo = .ok (owner, repo))
    (hmaj : cfg.SyncMajor = true) (hmin : cfg.SyncMinor = true)
    (s1 s2 : σ) (ev1 ev2 : List Event) (e1 e2 : Option GoError)
    (hA : Action.syncTag c cfg s owner repo sv.MajorTag = (s1, ev1, e1))
    (hB : Action.syncTag c cfg s1 owner repo sv.MinorTag = (s2, ev2, e2)) :
    Action.Run c cfg s = (s2, ev1 ++ ev2, joinSyncErrors sv.MajorTag sv.MinorTag e1 e2) ∧
    (joinSyncErrors sv.MajorTag sv.MinorTag e1 e2 = none ↔ e1 = none ∧ e2 = none) ∧
    (∀ a, e1 = some a →
      ∃ es, joinSyncErrors sv.MajorTag sv.MinorTag e1 e2 = some (GoError.join es) ∧
        GoError.wrap ("failed to sync major tag " ++ sv.MajorTag) a ∈ es) ∧
    (∀ b, e2 = some b →
      ∃ es, joinSyncErrors sv.MajorTag sv.MinorTag e1 e2 = some (GoError.join es) ∧
        GoError.wrap ("failed to sync minor tag " ++ sv.MinorTag) b ∈ es) := by
  refine ⟨Run_eq_of_both c cfg s tag sv owner repo h1 h2 h3 h4 hmaj hmin
    s1 s2 ev1 ev2 e1 e2 hA hB, ?_, ?_, ?_⟩
  · cases e1 <;> cases e2 <;> simp [joinSyncErrors]
  · rintro a rfl
    cases e2 with
    | none => exact ⟨_, rfl, List.Mem.head _⟩
    | some b => exact ⟨_, rfl, List.Mem.head _⟩
  · rintro b rfl
    cases e1 with
    | none => exact ⟨_, rfl, List.Mem.head _⟩
    | some a => exact ⟨_, rfl, List.Mem.tail _ (List.Mem.head _)⟩

/-- C2 witness: the aggregation theorem applied to the in-memory remote
starting from an empty store, where both rolling tags are created and the
run succeeds. -/
theorem Run_attempts_both_witness :
    Action.Run memClient baseCfg ([] : RefStore) =
      ([((("owner" : String), ("repo" : String), ("refs/tags/v1" : String)), ("abc123" : String)),
        ((("owner" : String), ("repo" : String), ("refs/tags/v1.2" : String)), ("abc123" : String))],
       [Event.getRef "owner" "repo" "tags/v1",
        Event.createRef "owner" "repo" { Ref := "refs/tags/v1", SHA := "abc123" }] ++
       [Event.getRef "owner" "repo" "tags/v1.2",
        Event.createRef "owner" "repo" { Ref := "refs/tags/v1.2", SHA := "abc123" }],
       joinSyncErrors svPlain.MajorTag svPlain.MinorTag none none) ∧
    (joinSyncErrors svPlain.MajorTag svPlain.MinorTag none none = none ↔
      (none : Option GoError) = none ∧ (none : Option GoError) = none) ∧
    (∀ a, (none : Option GoError) = some a →
      ∃ es, joinSyncErrors svPlain.MajorTag svPlain.MinorTag none none =
          some (GoError.join es) ∧
        GoError.wrap ("failed to sync major tag " ++ svPlain.MajorTag) a ∈ es) ∧
    (∀ b, (none : Option GoError) = some b →
      ∃ es, joinSyncErrors svPlain.MajorTag svPlain.MinorTag none none =
          some (GoError.join es) ∧
        GoError.wrap ("failed to sync minor tag " ++ svPlain.MinorTag) b ∈ es) :=
  Run_attempts_both_and_aggregates memClient baseCfg ([] : RefStore) "v1.2.3" svPlain
    "owner" "repo" rfl rfl rfl rfl rfl rfl _ _ _ _ none none rfl rfl

/-- C5 counterexample: with a client whose calls fail with the context
cancellation error (no structured response), the major reconciliation
fails with that cancellation cause, yet the minor reconciliation is still
attempted — its probe call appears in the run's trace — contradicting the
claim that it is not attempted. -/
theorem Run_cancel_continues_counterexample :
    Action.Run cancelledClient baseCfg () =
      ((), [Event.getRef "owner" "repo" "tags/v1", Event.getRef "owner" "repo" "tags/v1.2"],
       some (GoError.join
         [GoError.wrap "failed to sync major tag v1"
            (GoError.wrap "failed to check if tag v1 exists" (GoError.msg "context canceled")),
          GoError.wrap "failed to sync minor tag v1.2"
            (GoError.wrap "failed to check if tag v1.2 exists" (GoError.msg "context canceled"))])) ∧
    Event.getRef "owner" "repo" "tags/v1.2" ∈ (Action.Run cancelledClient baseCfg ()).2.1 := by
  refine ⟨rfl, ?_⟩
  have h : (Action.Run cancelledClient baseCfg ()).2.1 =
      [Event.getRef "owner" "repo" "tags/v1", Event.getRef "owner" "repo" "tags/v1.2"] := rfl
  rw [h]
  exact List.Mem.tail _ (List.Mem.head _)

/-- C5 (amended): when the major reconciliation fails with a cancellation
error, the orchestrator does not stop: the minor reconciliation is still
attempted, and the cancellation failure is propagated upward inside the
aggregated error, wrapped with the major rolling tag name. -/
theorem Run_cancellation_collected_minor_attempted {σ : Type} (c : GitHubClient σ)
    (cfg : Config) (s : σ) (tag : String) (sv : SemVer) (owner repo : String)
    (h1 : extractTagFromRef cfg.GitRef = .ok tag)
    (h2 : ParseSemVer tag = .ok sv)
    (h3 : (sv.IsPrerelease && cfg.SkipPrereleases) = false)
    (h4 : parseRepository cfg.GitHubRepo = .ok (owner, repo))
    (hmaj : cfg.SyncMajor = true) (hmin : cfg.SyncMinor = true)
    (s1 s2 : σ) (ev1 ev2 : List Event) (ecancel : GoError) (e2 : Option GoError)
    (hA : Action.syncTag c cfg s owner repo sv.MajorTag = (s1, ev1, some ecancel))
    (hB : Action.syncTag c cfg s1 owner repo sv.MinorTag = (s2, ev2, e2)) :
    (Action.Run c cfg s).2.1 = ev1 ++ ev2 ∧
    ∃ es, (Action.Run c cfg s).2.2 = some (GoError.join es) ∧
      GoError.wrap ("failed to sync major tag " ++ sv.MajorTag) ecancel ∈ es := by
  have hrun := Run_eq_of_both c cfg s tag sv owner repo h1 h2 h3 h4 hmaj hmin
    s1 s2 ev1 ev2 (some ecancel) e2 hA hB
  refine ⟨by rw [hrun], ?_⟩
  cases e2 with
  | none =>
    exact ⟨[GoError.wrap ("failed to sync major tag " ++ sv.MajorTag) ecancel],
      by rw [hrun]; rfl, List.Mem.head _⟩
  | some b =>
    exact ⟨[GoError.wrap ("failed to sync major tag " ++ sv.MajorTag) ecancel,
            GoError.wrap ("failed to sync minor tag " ++ sv.MinorTag) b],
      by rw [hrun]; rfl, List.Mem.head _⟩

/-- C5 (amended) witness: the amended theorem applied to the cancelled
client, where both probes fail with the cancellation error. -/
theorem Run_cancellation_collected_witness :
    (Action.Run cancelledClient baseCfg ()).2.1 =
      [Event.getRef "owner" "repo" "tags/v1"] ++ [Event.getRef "owner" "repo" "tags/v1.2"] ∧
    ∃ es, (Action.Run cancelledClient baseCfg ()).2.2 = some (GoError.join es) ∧
      GoError.wrap ("failed to sync major tag " ++ svPlain.MajorTag)
        (GoError.wrap "failed to check if tag v1 exists" (GoError.msg "context canceled")) ∈ es :=
  Run_cancellation_collected_minor_attempted cancelledClient baseCfg () "v1.2.3" svPlain
    "owner" "repo" rfl rfl rfl rfl rfl rfl () () _ _ _ _ rfl rfl

/-- C6: for every run whose parsed tag is a prerelease and whose
configuration enables SkipPrereleases, the run succeeds with zero side
effects: for every client the remote state is returned unchanged and the
event trace is empty (no probe, create, or update is issued for either
rolling tag). -/
theorem Run_skip_prerelease {σ : Type} (c : GitHubClient σ) (cfg : Config) (s : σ)
    (tag : String) (sv : SemVer)
    (h1 : extractTagFromRef cfg.GitRef = .ok tag)
    (h2 : ParseSemVer tag = .ok sv)
    (hpre : sv.IsPrerelease = true) (hskip : cfg.SkipPrereleases = true) :
    Action.Run c cfg s = (s, [], none) := by
  simp [Action.Run, h1, h2, hpre, hskip]

theorem refLookup_refSet_self (m : RefStore) (k : String × String × String) (v : String) :
    refLookup (refSet m k v) k = some v := by
  induction m with
  | nil => simp [refSet, refLookup]
  | cons p rest ih =>
    obtain ⟨k', v'⟩ := p
    by_cases hk : k' = k
    · subst hk
      simp [refSet, refLookup]
    · simp [refSet, refLookup, hk, ih]

theorem refSet_idem (m : RefStore) (k : String × String × String) (v : String) :
    refSet (refSet m k v) k v = refSet m k v := by
  induction m with
  | nil => simp [refSet]
  | cons p rest ih =>
    obtain ⟨k', v'⟩ := p
    by_cases hk : k' = k
    · subst hk
      simp [refSet]
    · simp [refSet, hk, ih]

/-- C8: real reconciliation against the in-memory remote (which records
the first call's effect faithfully) is idempotent: both invocations
succeed, either invocation ends with the rolling tag present and pointing
at the target commit, and the second invocation leaves the remote state
unchanged, taking the present / force-update branch. -/
theorem syncTag_idempotent (m : RefStore) (cfg : Config) (owner repo tag : String)
    (hdry : cfg.DryRun = false) :
    ∃ ev1, Action.syncTag memClient cfg m owner repo tag =
        (refSet m (owner, repo, "refs/tags/" ++ tag) cfg.CommitSHA, ev1, none) ∧
      refLookup (refSet m (owner, repo, "refs/tags/" ++ tag) cfg.CommitSHA)
        (owner, repo, "refs/tags/" ++ tag) = some cfg.CommitSHA ∧
      Action.syncTag memClient cfg
          (refSet m (owner, repo, "refs/tags/" ++ tag) cfg.CommitSHA) owner repo tag =
        (refSet m (owner, repo, "refs/tags/" ++ tag) cfg.CommitSHA,
         [Event.getRef owner repo ("tags/" ++ tag),
          Event.updateRef owner repo ("tags/" ++ tag)
            { SHA := cfg.CommitSHA, Force := some true }],
         none) := by
  have hkey : ("refs/" ++ ("tags/" ++ tag) : String) = "refs/tags/" ++ tag := rfl
  have hlk1 : refLookup (refSet m (owner, repo, "refs/tags/" ++ tag) cfg.CommitSHA)
      (owner, repo, "refs/tags/" ++ tag) = some cfg.CommitSHA :=
    refLookup_refSet_self m _ cfg.CommitSHA
  have hget2 : memClient.GetRef (refSet m (owner, repo, "refs/tags/" ++ tag) cfg.CommitSHA)
      owner repo ("tags/" ++ tag) = (some { statusCode := 200 }, none) := by
    show (match refLookup (refSet m (owner, repo, "refs/tags/" ++ tag) cfg.CommitSHA)
            (owner, repo, "refs/" ++ ("tags/" ++ tag)) with
          | some _ => ((some { statusCode := 200 } : Option Response), (none : Option GoError))
          | none => (some { statusCode := 404 }, some (GoError.msg "not found"))) =
        (some { statusCode := 200 }, none)
    rw [hkey, hlk1]
  have hupd2 : memClient.UpdateRef (refSet m (owner, repo, "refs/tags/" ++ tag) cfg.CommitSHA)
      owner repo ("tags/" ++ tag) { SHA := cfg.CommitSHA, Force := some true } =
      (refSet m (owner, repo, "refs/tags/" ++ tag) cfg.CommitSHA, none) := by
    show (match refLookup (refSet m (owner, repo, "refs/tags/" ++ tag) cfg.CommitSHA)
            (owner, repo, "refs/" ++ ("tags/" ++ tag)) with
          | some _ =>
            (refSet (refSet m (owner, repo, "refs/tags/" ++ tag) cfg.CommitSHA)
              (owner, repo, "refs/" ++ ("tags/" ++ tag)) cfg.CommitSHA,
             (none : Option GoError))
          | none => (refSet m (owner, repo, "refs/tags/" ++ tag) cfg.CommitSHA,
                     some (GoError.msg "reference does not exist"))) =
        (refSet m (owner, repo, "refs/tags/" ++ tag) cfg.CommitSHA, none)
    rw [hkey, hlk1, refSet_idem]
  have hsecond : Action.syncTag memClient cfg
      (refSet m (owner, repo, "refs/tags/" ++ tag) cfg.CommitSHA) owner repo tag =
      (refSet m (owner, repo, "refs/tags/" ++ tag) cfg.CommitSHA,
       [Event.getRef owner repo ("tags/" ++ tag),
        Event.updateRef owner repo ("tags/" ++ tag)
          { SHA := cfg.CommitSHA, Force := some true }],
       none) := by
    rw [syncTag_eq_present memClient cfg _ owner repo tag _ hget2]
    simp [Action.syncTagDecided, hdry, hupd2]
  cases hlk : refLookup m (owner, repo, "refs/tags/" ++ tag) with
  | none =>
    have hget1 : memClient.GetRef m owner repo ("tags/" ++ tag) =
        (some { statusCode := 404 }, some (GoError.msg "not found")) := by
      show (match refLookup m (owner, repo, "refs/" ++ ("tags/" ++ tag)) with
            | some _ => ((some { statusCode := 200 } : Option Response), (none : Option GoError))
            | none => (some { statusCode := 404 }, some (GoError.msg "not found"))) =
          (some { statusCode := 404 }, some (GoError.msg "not found"))
      rw [hkey, hlk]
    have hcre : memClient.CreateRef m owner repo
        { Ref := "refs/tags/" ++ tag, SHA := cfg.CommitSHA } =
        (refSet m (owner, repo, "refs/tags/" ++ tag) cfg.CommitSHA, none) := rfl
    refine ⟨[Event.getRef owner repo ("tags/" ++ tag),
             Event.createRef owner repo { Ref := "refs/tags/" ++ tag, SHA := cfg.CommitSHA }],
      ?_, hlk1, hsecond⟩
    rw [syncTag_eq_notfound memClient cfg m owner repo tag _ _ hget1 rfl]
    simp [Action.syncTagDecided, hdry, hcre]
  | some v0 =>
    have hget1 : memClient.GetRef m owner repo ("tags/" ++ tag) =
        (some { statusCode := 200 }, none) := by
      show (match refLookup m (owner, repo, "refs/" ++ ("tags/" ++ tag)) with
            | some _ => ((some { statusCode := 200 } : Option Response), (none : Option GoError))
            | none => (some { statusCode := 404 }, some (GoError.msg "not found"))) =
          (some { statusCode := 200 }, none)
      rw [hkey, hlk]
    have hupd1 : memClient.UpdateRef m owner repo ("tags/" ++ tag)
        { SHA := cfg.CommitSHA, Force := some true } =
        (refSet m (owner, repo, "refs/tags/" ++ tag) cfg.CommitSHA, none) := by
      show (match refLookup m (owner, repo, "refs/" ++ ("tags/" ++ tag)) with
            | some _ =>
              (refSet m (owner, repo, "refs/" ++ ("tags/" ++ tag)) cfg.CommitSHA,
               (none : Option GoError))
            | none => (m, some (GoError.msg "reference does not exist"))) =
          (refSet m (owner, repo, "refs/tags/" ++ tag) cfg.CommitSHA, none)
      rw [hkey, hlk]
    refine ⟨[Event.getRef owner repo ("tags/" ++ tag),
             Event.updateRef owner repo ("tags/" ++ tag)
               { SHA := cfg.CommitSHA, Force := some true }],
      ?_, hlk1, hsecond⟩
    rw [syncTag_eq_present memClient cfg m owner repo tag _ hget1]
    simp [Action.syncTagDecided, hdry, hupd1]

/-- C8 witness: the idempotence theorem applied at an empty store for the
rolling tag `v1` and commit `abc123`. -/
theorem syncTag_idempotent_witness :
    ∃ ev1, Action.syncTag memClient baseCfg ([] : RefStore) "owner" "repo" "v1" =
        (refSet ([] : RefStore) ("owner", "repo", "refs/tags/v1") baseCfg.CommitSHA, ev1, none) ∧
      refLookup (refSet ([] : RefStore) ("owner", "repo", "refs/tags/v1") baseCfg.CommitSHA)
        ("owner", "repo", "refs/tags/v1") = some baseCfg.CommitSHA ∧
      Action.syncTag memClient baseCfg
          (refSet ([] : RefStore) ("owner", "repo", "refs/tags/v1") baseCfg.CommitSHA)
          "owner" "repo" "v1" =
        (refSet ([] : RefStore) ("owner", "repo", "refs/tags/v1") baseCfg.CommitSHA,
         [Event.getRef "owner" "repo" "tags/v1",
          Event.updateRef "owner" "repo" "tags/v1"
            { SHA := baseCfg.CommitSHA, Force := some true }],
         none) :=
  syncTag_idempotent ([] : RefStore) baseCfg "owner" "repo" "v1" rfl

/-- C6 witness: the skip theorem applied at the prerelease ref
`refs/tags/v1.2.3-beta` against the in-memory remote. -/
theorem Run_skip_prerelease_witness :
    Action.Run memClient { baseCfg with GitRef := "refs/tags/v1.2.3-beta" } ([] : RefStore) =
      (([] : RefStore), [], none) :=
  Run_skip_prerelease memClient { baseCfg with GitRef := "refs/tags/v1.2.3-beta" }
    ([] : RefStore) "v1.2.3-beta"
    { Major := "1", Minor := "2", Patch := "3", Suffix := "-beta",
      Full := "v1.2.3-beta", IsPrerelease := true }
    rfl rfl rfl rfl

end SemverTagSync
